import Mathlib

/-!
Shallow embedding of the order-completion analysis program (`app.py`):
the schema normalizer (`validate_and_process_data`), the order reconciler
(`analyze_data_by_region`), the region aggregator (`analyze_region_details`),
the check-in validator (`analyze_checkin`) and the history page's filtering
and sorting (the `filtered_history_sorted` computation of
`render_history_page`).

Modelling conventions:
* A pandas DataFrame as the reconciler sees it is a list of rows whose
  relevant cells (`工单号`, `省份`, `城市`) are `Option String` (a missing or
  NaN cell is `none`), together with one flag per column recording whether
  the column is present at all (`'工单号' in df.columns` checks).
* The schema normalizer renames, drops and rewrites whole columns, so for it
  a table is a list of named columns (name plus cell list).
* Timestamps are `Option Int`: `pd.to_datetime(..., errors='coerce')` turns
  unparseable values into null, modelled as `none`; parsed timestamps are
  totally ordered, modelled as integers.
* Percentage rates are rationals (`ℚ`), modelling the exact real division.
* The Python functions return `None` when the caller passed no table at all
  (nothing uploaded); the analyses are modelled on tables that are present,
  except `validate_and_process_data`, whose `None`-tolerant behaviour is
  part of its signature and is modelled with `Option`.
-/

namespace OrderAnalysis

/-! ## Data model for the reconciler and the region aggregator -/

/-- One row of the Planned or Actual table, restricted to the cells the
reconciler and the region aggregator read. -/
structure Row where
  orderId : Option String
  province : Option String
  city : Option String
deriving DecidableEq, Repr

/-- A DataFrame for the reconciler: per-column presence flags plus rows. -/
structure DFrame where
  hasOrderId : Bool
  hasProvince : Bool
  hasCity : Bool
  rows : List Row
deriving DecidableEq, Repr

/-- `series.isin(xs)` on an optional cell: a NaN cell is never in `xs`. -/
def isin (v : Option String) (xs : List String) : Bool :=
  match v with
  | some s => xs.contains s
  | none => false

/-- The province/city filtering at the start of `analyze_data_by_region`:
an empty selection list means no restriction. -/
def applyFilters (rows : List Row) (selected_provinces selected_cities : List String) :
    List Row :=
  let rows1 :=
    if selected_provinces.isEmpty then rows
    else rows.filter (fun r => isin r.province selected_provinces)
  if selected_cities.isEmpty then rows1
  else rows1.filter (fun r => isin r.city selected_cities)

/-- `set(df['工单号'].dropna()) if '工单号' in df.columns else set()`. -/
def ids (df : DFrame) : Finset String :=
  if df.hasOrderId then (df.rows.filterMap (fun r => r.orderId)).toFinset else ∅

/-- The rows of one city: `df[df['城市'] == city]` (a NaN city matches no city). -/
def city_rows (rows : List Row) (city : String) : List Row :=
  rows.filter (fun r => decide (r.city = some city))

/-- The distinct non-null order ids of one city's rows:
`set(city_df['工单号'].dropna())`. -/
def city_ids (rows : List Row) (city : String) : Finset String :=
  ((city_rows rows city).filterMap (fun r => r.orderId)).toFinset

/-- One row of the region summary table built by `analyze_region_details`.
The Python code renders `completion_rate` as a percent string; the rational
value that is formatted is kept instead. -/
structure RegionRow where
  province : Option String
  city : String
  plan_count : ℕ
  on_time_count : ℕ
  modified_count : ℕ
  completion_rate : ℚ
deriving DecidableEq, Repr

/-- `df.sort_values('计划待完工', ascending=False)`: the relation row `a`
comes before row `b` when its planned count is at least `b`'s. -/
def region_order (a b : RegionRow) : Prop :=
  b.plan_count ≤ a.plan_count

instance : DecidableRel region_order := fun _ _ => Nat.decLe _ _

/-- The body of the per-city loop of `analyze_region_details`: one
`RegionRow` for one city, computed from both tables' rows of that city. -/
def region_row_for (plan_df actual_df : DFrame) (city : String) : RegionRow :=
  let city_plan := city_rows plan_df.rows city
  let city_plan_ids := city_ids plan_df.rows city
  let plan_count := city_plan_ids.card
  let city_actual := city_rows actual_df.rows city
  let city_actual_ids := city_ids actual_df.rows city
  let on_time_count := (city_plan_ids ∩ city_actual_ids).card
  let modified_count := (city_actual_ids \ city_plan_ids).card
  let today_completed := on_time_count + modified_count
  let completion_rate : ℚ :=
    if 0 < plan_count then (today_completed : ℚ) / (plan_count : ℚ) * 100 else 0
  let province : Option String :=
    match city_plan.head? with
    | some r => r.province
    | none =>
      match city_actual.head? with
      | some r => r.province
      | none => some ""
  { province := province, city := city, plan_count := plan_count,
    on_time_count := on_time_count, modified_count := modified_count,
    completion_rate := completion_rate }

/-- `analyze_region_details` of `app.py`: one summary per distinct non-null
city appearing in either table, sorted by planned count descending.  Returns
the empty table when the Planned table lacks the `省份` or `城市` column. -/
def analyze_region_details (plan_df actual_df : DFrame) : List RegionRow :=
  if plan_df.hasProvince && plan_df.hasCity then
    let planCities := plan_df.rows.filterMap (fun r => r.city)
    let actualCities :=
      if actual_df.hasCity then actual_df.rows.filterMap (fun r => r.city) else []
    let all_cities := (planCities ++ actualCities).dedup
    let results := all_cities.map (region_row_for plan_df actual_df)
    List.insertionSort region_order results
  else []

/-- The dictionary returned by `analyze_data_by_region`. -/
structure AnalysisResult where
  total_plan : ℕ
  total_actual : ℕ
  on_time : ℕ
  modified : ℕ
  today_completed : ℕ
  completion_rate : ℚ
  region_stats : List RegionRow
deriving DecidableEq, Repr

/-- `analyze_data_by_region` of `app.py`: filter both tables by the selected
provinces and cities, take the distinct non-null order ids of each, classify
`on_time = P ∩ A` and `modified = A \ P`, and compute the completion rate
with a guard against an empty plan. -/
def analyze_data_by_region (plan_df actual_df : DFrame)
    (selected_provinces selected_cities : List String) : AnalysisResult :=
  let filtered_plan : DFrame :=
    { plan_df with rows := applyFilters plan_df.rows selected_provinces selected_cities }
  let filtered_actual : DFrame :=
    { actual_df with rows := applyFilters actual_df.rows selected_provinces selected_cities }
  let plan_ids := ids filtered_plan
  let actual_ids := ids filtered_actual
  let total_plan := plan_ids.card
  let total_actual := actual_ids.card
  let on_time_ids := plan_ids ∩ actual_ids
  let modified_ids := actual_ids \ plan_ids
  let on_time_count := on_time_ids.card
  let modified_count := modified_ids.card
  let today_completed := on_time_count + modified_count
  let completion_rate : ℚ :=
    if 0 < total_plan then (today_completed : ℚ) / (total_plan : ℚ) * 100 else 0
  { total_plan := total_plan, total_actual := total_actual,
    on_time := on_time_count, modified := modified_count,
    today_completed := today_completed, completion_rate := completion_rate,
    region_stats := analyze_region_details filtered_plan filtered_actual }

/-- The set of distinct non-null order ids of a table after filtering: the
`P` and `A` of the specification, for the same filter scope. -/
def distinct_order_ids (df : DFrame) (selected_provinces selected_cities : List String) :
    Finset String :=
  ((applyFilters df.rows selected_provinces selected_cities).filterMap
    (fun r => r.orderId)).toFinset

/-! ## Data model for the schema normalizer -/

/-- One named column of a raw spreadsheet table; a cell may be null. -/
structure Column where
  name : String
  values : List (Option String)
deriving DecidableEq, Repr

/-- The rename map applied to the Planned table:
`{'来单时间': '工单创建时间', '省': '省份', '市': '城市'}`. -/
def rename_plan_col (c : String) : String :=
  if c = "来单时间" then "工单创建时间"
  else if c = "省" then "省份"
  else if c = "市" then "城市"
  else c

/-- The rename map applied to the Actual table: `{'省': '省份', '市': '城市'}`. -/
def rename_actual_col (c : String) : String :=
  if c = "省" then "省份"
  else if c = "市" then "城市"
  else c

/-- The `市$` regex matches exactly when the string's last character is
`市`. -/
def ends_with_shi (s : String) : Bool :=
  s.data.getLast? == some '市'

/-- `str.replace('市$', '', regex=True)` on one cell: the anchored pattern
matches at most once, so the replacement removes one trailing `市`
character when present. -/
def strip_city_suffix (s : String) : String :=
  if ends_with_shi s then String.mk s.data.dropLast else s

/-- `df.rename(columns=...)` for a pointwise rename function. -/
def rename_columns (f : String → String) (t : List Column) : List Column :=
  t.map (fun c => { c with name := f c.name })

/-- `df.drop(columns=['预约完工时间'])`, guarded by column existence in the
source; dropping an absent column is the identity either way. -/
def drop_columns (t : List Column) : List Column :=
  t.filter (fun c => decide (c.name ≠ "预约完工时间"))

/-- `df.loc[:, '城市'] = df['城市'].str.replace('市$', '', regex=True)` when
the `城市` column exists: strip the trailing `市` of every non-null cell. -/
def clean_city_column (t : List Column) : List Column :=
  t.map (fun c =>
    if c.name = "城市" then
      { c with values := c.values.map (Option.map strip_city_suffix) }
    else c)

/-- The Planned-table half of `validate_and_process_data`:
rename, drop the deprecated column, clean the city names. -/
def process_plan (t : List Column) : List Column :=
  clean_city_column (drop_columns (rename_columns rename_plan_col t))

/-- The Actual-table half of `validate_and_process_data`:
rename and clean the city names (nothing is dropped). -/
def process_actual (t : List Column) : List Column :=
  clean_city_column (rename_columns rename_actual_col t)

/-- `name in df.columns`. -/
def hasColumn (t : List Column) (n : String) : Bool :=
  t.any (fun c => c.name == n)

/-- The columns required of the Actual table after renaming. -/
def actual_required_cols : List String :=
  ["工单号", "省份", "城市", "完工时间"]

/-- `validate_and_process_data` of `app.py`: process whichever tables are
present and report the required columns missing from the Actual table. -/
def validate_and_process_data (plan_df actual_df : Option (List Column)) :
    Option (List Column) × Option (List Column) × List String :=
  let plan2 := Option.map process_plan plan_df
  match actual_df with
  | none => (plan2, none, [])
  | some a =>
    let a2 := process_actual a
    let missing_cols := actual_required_cols.filter (fun c => !(hasColumn a2 c))
    let errors :=
      if missing_cols = [] then []
      else ["实际完工表格缺少必要列：" ++ String.intercalate ", " missing_cols]
    (plan2, some a2, errors)

/-! ## Data model for the check-in validator -/

/-- One row of the Actual table as the check-in validator reads it, after
`pd.to_datetime(..., errors='coerce')`: an unparseable or missing time is
`none`. -/
structure CheckinRow where
  apptStart : Option Int
  apptEnd : Option Int
  checkin : Option Int
deriving DecidableEq, Repr

/-- The Actual table handed to `analyze_checkin`: its column-name list (for
the missing-column check) and its rows. -/
structure CheckinDF where
  cols : List String
  rows : List CheckinRow
deriving DecidableEq, Repr

/-- The columns `analyze_checkin` requires. -/
def required_checkin_cols : List String :=
  ["预约开始时间", "预约结束时间", "上门签到时间"]

/-- The per-row classification lambda of `analyze_checkin`: `有效` (`true`)
iff both appointment bounds are non-null and
`预约开始时间 <= 上门签到时间 <= 预约结束时间`, both bounds inclusive. -/
def checkin_status (r : CheckinRow) : Bool :=
  match r.apptStart, r.apptEnd, r.checkin with
  | some s, some e, some c => decide (s ≤ c ∧ c ≤ e)
  | _, _, _ => false

/-- The structured result of `analyze_checkin`: either the recoverable
`available: False` dictionary naming the missing columns, or a report.  A
report's `details` holds each considered row with its classification. -/
inductive CheckinResult where
  | unavailable (missing_cols : List String) (message : String)
  | report (valid_count invalid_count excluded_count : ℕ) (compliance_rate : ℚ)
      (details : List (CheckinRow × Bool)) (message : Option String)
deriving DecidableEq, Repr

/-- `analyze_checkin` of `app.py`: check the required columns, exclude rows
with a null check-in time, classify the rest, and compute the compliance
rate with a guard against an empty denominator. -/
def analyze_checkin (df : CheckinDF) : CheckinResult :=
  let missing_cols := required_checkin_cols.filter (fun c => !(df.cols.contains c))
  if missing_cols = [] then
    let valid_df := df.rows.filter (fun r => r.checkin.isSome)
    if valid_df.length = 0 then
      .report 0 0 (df.rows.length - valid_df.length) 0 []
        (some "所有记录的上门签到时间均为空，无法进行校验")
    else
      let tagged := valid_df.map (fun r => (r, checkin_status r))
      let valid_count := (tagged.filter (fun q => q.2)).length
      let invalid_count := (tagged.filter (fun q => !q.2)).length
      let excluded_count := df.rows.length - valid_df.length
      let compliance_rate : ℚ :=
        if 0 < valid_df.length then (valid_count : ℚ) / (valid_df.length : ℚ) * 100 else 0
      .report valid_count invalid_count excluded_count compliance_rate tagged none
  else
    .unavailable missing_cols
      ("数据中缺少签到校验所需的列：" ++ String.intercalate ", " missing_cols)

/-! ## Data model for the history page -/

/-- One history entry as the history page reads it; a dictionary may lack
either key, so both are optional (`h.get(...)`). -/
structure HistoryEntry where
  custom_title : Option String
  analysis_date : Option String
deriving DecidableEq, Repr

/-- The two time-filter modes of the history page: by exact day, or by
year-month prefix. -/
inductive HistoryFilter where
  | byDay (d : String)
  | byMonth (m : String)
deriving DecidableEq, Repr

/-- The time filtering of `render_history_page`: by exact `analysis_date`,
or by `analysis_date.startswith(month)`; an entry without the key never
matches. -/
def filter_history (mode : HistoryFilter) (l : List HistoryEntry) : List HistoryEntry :=
  match mode with
  | .byDay d => l.filter (fun h => decide (h.analysis_date = some d))
  | .byMonth m =>
    l.filter (fun h =>
      match h.analysis_date with
      | some s => s.startsWith m
      | none => false)

/-- The sort key `(x.get('custom_title') is None, x.get('analysis_date', ''))`. -/
def history_key (h : HistoryEntry) : Bool × String :=
  (h.custom_title.isNone, h.analysis_date.getD "")

/-- Lexicographic `≤` on the sort key (`False < True`, dates by string
comparison). -/
def key_le (a b : Bool × String) : Prop :=
  a.1 < b.1 ∨ (a.1 = b.1 ∧ a.2 ≤ b.2)

/-- `sorted(..., key=..., reverse=True)`: entry `a` comes before entry `b`
when `a`'s key is at least `b`'s. -/
def history_order (a b : HistoryEntry) : Prop :=
  key_le (history_key b) (history_key a)

instance : DecidableRel history_order := fun a b => by
  unfold history_order key_le
  exact inferInstance

/-- The `filtered_history_sorted` computation of `render_history_page`:
filter by the selected day or month, then sort descending by
`(custom_title is None, analysis_date)`. -/
def filtered_history_sorted (mode : HistoryFilter) (l : List HistoryEntry) :
    List HistoryEntry :=
  List.insertionSort history_order (filter_history mode l)

/-! ## Theorems -/

/-- Rows surviving the province/city filter are rows of the input. -/
lemma mem_applyFilters {rows : List Row} {sp sc : List String} {r : Row}
    (h : r ∈ applyFilters rows sp sc) : r ∈ rows := by
  unfold applyFilters at h
  split_ifs at h <;> simp_all [List.mem_filter]

/-- Claim C1: for every pair of normalized, filtered Planned/Actual tables,
`analyze_data_by_region` takes `P` and `A` to be the sets of distinct
non-null order ids of each table, classifies `on_time = P ∩ A` and
`modified = A \ P`, sets `completed_count = |on_time| + |modified|`, and
computes `completion_rate = completed_count / |P| * 100` when `|P| > 0` and
exactly `0` when `P` is empty. -/
theorem analyze_data_by_region_reconciles (plan_df actual_df : DFrame)
    (sp sc : List String) (P A : Finset String)
    (hp : plan_df.hasOrderId = true) (ha : actual_df.hasOrderId = true)
    (hP : P = distinct_order_ids plan_df sp sc)
    (hA : A = distinct_order_ids actual_df sp sc) :
    (∀ x, x ∈ P ↔ ∃ r ∈ applyFilters plan_df.rows sp sc, r.orderId = some x) ∧
    (∀ x, x ∈ A ↔ ∃ r ∈ applyFilters actual_df.rows sp sc, r.orderId = some x) ∧
    (analyze_data_by_region plan_df actual_df sp sc).on_time = (P ∩ A).card ∧
    (analyze_data_by_region plan_df actual_df sp sc).modified = (A \ P).card ∧
    (analyze_data_by_region plan_df actual_df sp sc).today_completed
      = (P ∩ A).card + (A \ P).card ∧
    (analyze_data_by_region plan_df actual_df sp sc).completion_rate
      = (if 0 < P.card
          then (((P ∩ A).card + (A \ P).card : ℕ) : ℚ) / (P.card : ℚ) * 100
          else 0) ∧
    (P = ∅ → (analyze_data_by_region plan_df actual_df sp sc).completion_rate = 0) := by
  subst hP hA
  have hplan : ids { plan_df with rows := applyFilters plan_df.rows sp sc }
      = distinct_order_ids plan_df sp sc := by
    simp [ids, hp, distinct_order_ids]
  have hact : ids { actual_df with rows := applyFilters actual_df.rows sp sc }
      = distinct_order_ids actual_df sp sc := by
    simp [ids, ha, distinct_order_ids]
  refine ⟨?_, ?_, ?_, ?_, ?_, ?_, ?_⟩
  · intro x
    simp [distinct_order_ids, List.mem_filterMap]
  · intro x
    simp [distinct_order_ids, List.mem_filterMap]
  · simp only [analyze_data_by_region]
    rw [hplan, hact]
  · simp only [analyze_data_by_region]
    rw [hplan, hact]
  · simp only [analyze_data_by_region]
    rw [hplan, hact]
  · simp only [analyze_data_by_region]
    rw [hplan, hact]
  · intro h
    simp only [analyze_data_by_region]
    rw [hplan, h]
    simp

/-- The empty Planned table and the one-row Actual table of the
specification's `P = {}`, `A = {B1}` scenario. -/
def plan_scenario_empty : DFrame := ⟨true, true, true, []⟩

/-- The Actual table `A = {B1}` of the same scenario. -/
def actual_scenario_b1 : DFrame :=
  ⟨true, true, true, [⟨some "B1", some "GD", some "SZ"⟩]⟩

/-- Witness for C1 at the scenario `P = {}`, `A = {B1}`: the completion rate
is `0` while the completed count is `1`. -/
theorem analyze_data_by_region_reconciles_witness :
    (analyze_data_by_region plan_scenario_empty actual_scenario_b1 [] []).completion_rate = 0 ∧
    (analyze_data_by_region plan_scenario_empty actual_scenario_b1 [] []).today_completed = 1 := by
  have h := analyze_data_by_region_reconciles plan_scenario_empty actual_scenario_b1
    [] [] ∅ {"B1"} (by decide) (by decide) (by decide) (by decide)
  exact ⟨h.2.2.2.2.2.2 rfl, by decide⟩

/-- A Planned table with the single order `A1`. -/
def plan_one_order : DFrame :=
  ⟨true, true, true, [⟨some "A1", some "GD", some "SZ"⟩]⟩

/-- An Actual table with the orders `A1` and `B1`. -/
def actual_two_orders : DFrame :=
  ⟨true, true, true, [⟨some "A1", some "GD", some "SZ"⟩, ⟨some "B1", some "GD", some "SZ"⟩]⟩

/-- Counterexample to claim C2 as stated: with the consistent set-derived
counts `|P| = 1`, `|A| = 2` the reconciler's completion rate is `200`, which
is not in `[0, 100]`. -/
theorem completion_rate_above_100 :
    (analyze_data_by_region plan_one_order actual_two_orders [] []).completion_rate = 200 ∧
    ¬ (analyze_data_by_region plan_one_order actual_two_orders [] []).completion_rate ≤ 100 := by
  have hr : (analyze_data_by_region plan_one_order actual_two_orders [] []).completion_rate
      = ((2:ℕ):ℚ) / ((1:ℕ):ℚ) * 100 := rfl
  rw [hr]
  norm_num

/-- Bounds for the completion-rate formula over arbitrary id sets. -/
lemma rate_formula_bounds (P A : Finset String) :
    (0:ℚ) ≤ (if 0 < P.card
        then ((((P ∩ A).card + (A \ P).card) : ℕ) : ℚ) / (P.card : ℚ) * 100 else 0) ∧
    (P.card = 0 → (if 0 < P.card
        then ((((P ∩ A).card + (A \ P).card) : ℕ) : ℚ) / (P.card : ℚ) * 100 else 0) = 0) ∧
    (A.card ≤ P.card → (if 0 < P.card
        then ((((P ∩ A).card + (A \ P).card) : ℕ) : ℚ) / (P.card : ℚ) * 100 else 0) ≤ 100) := by
  refine ⟨?_, ?_, ?_⟩
  · split_ifs with h
    · positivity
    · exact le_refl 0
  · intro h
    simp [h]
  · intro h
    split_ifs with hpos
    · have key : (P ∩ A).card + (A \ P).card = A.card := by
        rw [Finset.inter_comm]
        exact Finset.card_inter_add_card_sdiff A P
      rw [key]
      have hP : (0:ℚ) < (P.card : ℚ) := by exact_mod_cast hpos
      have hle : ((A.card : ℚ)) / (P.card : ℚ) ≤ 1 := by
        rw [div_le_one hP]
        exact_mod_cast h
      calc ((A.card : ℚ)) / (P.card : ℚ) * 100 ≤ 1 * 100 :=
            mul_le_mul_of_nonneg_right hle (by norm_num)
        _ = 100 := one_mul 100
    · norm_num

/-- Claim C2 amended: the completion rate is always nonnegative, is exactly
`0` when the set of distinct non-null planned order ids is empty, and lies
in `[0, 100]` whenever the distinct actual ids are no more numerous than the
distinct planned ids (without that extra bound the rate can exceed 100, as
the counterexample shows). -/
theorem completion_rate_bounds (plan_df actual_df : DFrame) (sp sc : List String) :
    0 ≤ (analyze_data_by_region plan_df actual_df sp sc).completion_rate ∧
    ((analyze_data_by_region plan_df actual_df sp sc).total_plan = 0 →
      (analyze_data_by_region plan_df actual_df sp sc).completion_rate = 0) ∧
    ((analyze_data_by_region plan_df actual_df sp sc).total_actual ≤
        (analyze_data_by_region plan_df actual_df sp sc).total_plan →
      (analyze_data_by_region plan_df actual_df sp sc).completion_rate ≤ 100) :=
  rate_formula_bounds
    (ids { plan_df with rows := applyFilters plan_df.rows sp sc })
    (ids { actual_df with rows := applyFilters actual_df.rows sp sc })

/-- With all required columns present and at least one considered row,
`analyze_checkin` returns the main report built from the considered rows. -/
lemma analyze_checkin_report (df : CheckinDF)
    (hcols : required_checkin_cols.filter (fun c => !(df.cols.contains c)) = [])
    (hne : (df.rows.filter (fun r => r.checkin.isSome)).length ≠ 0) :
    analyze_checkin df = CheckinResult.report
      (((df.rows.filter (fun r => r.checkin.isSome)).map
          (fun r => (r, checkin_status r))).filter (fun q => q.2)).length
      (((df.rows.filter (fun r => r.checkin.isSome)).map
          (fun r => (r, checkin_status r))).filter (fun q => !q.2)).length
      (df.rows.length - (df.rows.filter (fun r => r.checkin.isSome)).length)
      (if 0 < (df.rows.filter (fun r => r.checkin.isSome)).length then
        (((((df.rows.filter (fun r => r.checkin.isSome)).map
            (fun r => (r, checkin_status r))).filter (fun q => q.2)).length : ℕ) : ℚ)
          / (((df.rows.filter (fun r => r.checkin.isSome)).length : ℕ) : ℚ) * 100
        else 0)
      ((df.rows.filter (fun r => r.checkin.isSome)).map (fun r => (r, checkin_status r)))
      none := by
  simp only [analyze_checkin, hcols, if_pos, if_neg hne]

/-- Claim C6: for every considered row (one whose check-in time parsed to a
non-null timestamp), `analyze_checkin` classifies it valid iff both
appointment bounds are non-null and
`appointment_start ≤ checkin_time ≤ appointment_end`, both bounds
inclusive; a considered row with a missing bound is classified invalid and
still appears among the classified details, rather than being excluded. -/
theorem analyze_checkin_valid_iff_in_window (df : CheckinDF) (r : CheckinRow)
    (hcols : required_checkin_cols.filter (fun c => !(df.cols.contains c)) = [])
    (hr : r ∈ df.rows) (hc : r.checkin.isSome = true) :
    ∃ v i ex rate details msg,
      analyze_checkin df = CheckinResult.report v i ex rate details msg ∧
      (r, checkin_status r) ∈ details ∧
      (checkin_status r = true ↔ ∃ s e c, r.apptStart = some s ∧ r.apptEnd = some e ∧
        r.checkin = some c ∧ s ≤ c ∧ c ≤ e) := by
  have hmem : r ∈ df.rows.filter (fun r => r.checkin.isSome) :=
    List.mem_filter.mpr ⟨hr, hc⟩
  have hne : (df.rows.filter (fun r => r.checkin.isSome)).length ≠ 0 := by
    intro h0
    rw [List.length_eq_zero] at h0
    simp [h0] at hmem
  refine ⟨_, _, _, _, _, _, analyze_checkin_report df hcols hne, ?_, ?_⟩
  · exact List.mem_map.mpr ⟨r, hmem, rfl⟩
  · cases hsv : r.apptStart with
    | none => simp [checkin_status, hsv]
    | some s =>
      cases hev : r.apptEnd with
      | none => simp [checkin_status, hsv, hev]
      | some e =>
        cases hcv : r.checkin with
        | none => simp [hcv] at hc
        | some c => simp [checkin_status, hsv, hev, hcv]

/-- A check-in table with one row whose check-in time equals the window's
start: the inclusive-boundary case. -/
def checkin_df_boundary : CheckinDF :=
  ⟨["预约开始时间", "预约结束时间", "上门签到时间"], [⟨some 10, some 20, some 10⟩]⟩

/-- The single row of `checkin_df_boundary`. -/
def checkin_row_boundary : CheckinRow := ⟨some 10, some 20, some 10⟩

/-- Witness for C6 at a row whose check-in time is exactly the window start:
the hypotheses hold and the row is classified valid. -/
theorem analyze_checkin_valid_iff_in_window_witness :
    checkin_status checkin_row_boundary = true ∧
    (∃ v i ex rate details msg,
      analyze_checkin checkin_df_boundary = CheckinResult.report v i ex rate details msg ∧
      (checkin_row_boundary, checkin_status checkin_row_boundary) ∈ details ∧
      (checkin_status checkin_row_boundary = true ↔
        ∃ s e c, checkin_row_boundary.apptStart = some s ∧
          checkin_row_boundary.apptEnd = some e ∧
          checkin_row_boundary.checkin = some c ∧ s ≤ c ∧ c ≤ e)) :=
  ⟨by decide,
   analyze_checkin_valid_iff_in_window checkin_df_boundary checkin_row_boundary
     (by decide) (by decide) (by decide)⟩

/-- Claim C7: rows with a null (or unparseable) check-in time are counted
only in `excluded_count` and never enter the compliance-rate denominator;
`compliance_rate = valid_count / considered_count * 100` with
`considered_count = valid_count + invalid_count`, and the rate is `0`
without any division when no row is considered. -/
theorem analyze_checkin_rate_partition (df : CheckinDF)
    (hcols : required_checkin_cols.filter (fun c => !(df.cols.contains c)) = []) :
    ∃ v i ex rate details msg,
      analyze_checkin df = CheckinResult.report v i ex rate details msg ∧
      ex = (df.rows.filter (fun r => r.checkin.isNone)).length ∧
      v + i = (df.rows.filter (fun r => r.checkin.isSome)).length ∧
      rate = (if 0 < v + i then ((v : ℕ) : ℚ) / (((v + i : ℕ)) : ℚ) * 100 else 0) := by
  have hnone : df.rows.filter (fun r => !(r.checkin.isSome))
      = df.rows.filter (fun r => r.checkin.isNone) := by
    apply List.filter_congr
    intro r _
    cases r.checkin <;> rfl
  have hsplit := List.length_eq_length_filter_add (l := df.rows)
    (fun r => r.checkin.isSome)
  rw [hnone] at hsplit
  by_cases hz : (df.rows.filter (fun r => r.checkin.isSome)).length = 0
  · refine ⟨0, 0, df.rows.length - (df.rows.filter (fun r => r.checkin.isSome)).length,
      0, [], some "所有记录的上门签到时间均为空，无法进行校验", ?_, ?_, ?_, ?_⟩
    · simp only [analyze_checkin, hcols, if_pos, hz, if_true]
    · omega
    · omega
    · norm_num
  · have htag := List.length_eq_length_filter_add
      (l := (df.rows.filter (fun r => r.checkin.isSome)).map (fun r => (r, checkin_status r)))
      (fun q => q.2)
    rw [List.length_map] at htag
    refine ⟨_, _, _, _, _, _, analyze_checkin_report df hcols hz, ?_, ?_, ?_⟩
    · omega
    · omega
    · rw [← htag]

/-- A check-in table with one excluded row (null check-in), one valid row
and one invalid row. -/
def checkin_df_mixed : CheckinDF :=
  ⟨["预约开始时间", "预约结束时间", "上门签到时间"],
   [⟨some 0, some 10, none⟩, ⟨some 0, some 10, some 5⟩, ⟨some 0, some 10, some 11⟩]⟩

/-- Witness for C7 at a table with one excluded, one valid and one invalid
row. -/
theorem analyze_checkin_rate_partition_witness :
    ∃ v i ex rate details msg,
      analyze_checkin checkin_df_mixed = CheckinResult.report v i ex rate details msg ∧
      ex = (checkin_df_mixed.rows.filter (fun r => r.checkin.isNone)).length ∧
      v + i = (checkin_df_mixed.rows.filter (fun r => r.checkin.isSome)).length ∧
      rate = (if 0 < v + i then ((v : ℕ) : ℚ) / (((v + i : ℕ)) : ℚ) * 100 else 0) :=
  analyze_checkin_rate_partition checkin_df_mixed (by decide)

/-- Claim C8: when any of the three check-in columns is absent,
`analyze_checkin` returns the structured unavailable result naming exactly
the missing columns (the function is total, so no exception is raised);
when all three are present it returns an available report. -/
theorem analyze_checkin_missing_columns (df : CheckinDF) :
    if required_checkin_cols.filter (fun c => !(df.cols.contains c)) = [] then
      ∃ v i ex rate details msg,
        analyze_checkin df = CheckinResult.report v i ex rate details msg
    else
      analyze_checkin df = CheckinResult.unavailable
        (required_checkin_cols.filter (fun c => !(df.cols.contains c)))
        ("数据中缺少签到校验所需的列：" ++ String.intercalate ", "
          (required_checkin_cols.filter (fun c => !(df.cols.contains c)))) := by
  by_cases hm : required_checkin_cols.filter (fun c => !(df.cols.contains c)) = []
  · rw [if_pos hm]
    by_cases hz : (df.rows.filter (fun r => r.checkin.isSome)).length = 0
    · refine ⟨0, 0, df.rows.length - (df.rows.filter (fun r => r.checkin.isSome)).length,
        0, [], some "所有记录的上门签到时间均为空，无法进行校验", ?_⟩
      simp only [analyze_checkin, hm, if_pos, hz, if_true]
    · exact ⟨_, _, _, _, _, _, analyze_checkin_report df hm hz⟩
  · rw [if_neg hm]
    simp only [analyze_checkin, hm, if_neg, if_false]

/-- The lexicographic key order is total. -/
lemma key_le_total (x y : Bool × String) : key_le x y ∨ key_le y x := by
  rcases lt_trichotomy x.1 y.1 with h | h | h
  · exact Or.inl (Or.inl h)
  · rcases le_total x.2 y.2 with h2 | h2
    · exact Or.inl (Or.inr ⟨h, h2⟩)
    · exact Or.inr (Or.inr ⟨h.symm, h2⟩)
  · exact Or.inr (Or.inl h)

/-- The lexicographic key order is transitive. -/
lemma key_le_trans {x y z : Bool × String} (hxy : key_le x y) (hyz : key_le y z) :
    key_le x z := by
  rcases hxy with h | ⟨h1, h2⟩
  · rcases hyz with g | ⟨g1, g2⟩
    · exact Or.inl (lt_trans h g)
    · exact Or.inl (g1 ▸ h)
  · rcases hyz with g | ⟨g1, g2⟩
    · refine Or.inl ?_
      rw [h1]
      exact g
    · exact Or.inr ⟨h1.trans g1, le_trans h2 g2⟩

instance : IsTotal HistoryEntry history_order :=
  ⟨fun a b => key_le_total (history_key b) (history_key a)⟩

instance : IsTrans HistoryEntry history_order :=
  ⟨fun _ _ _ hab hbc => key_le_trans hbc hab⟩

/-- Claim C9: for every history log and date filter, the retrieval sort
places every entry lacking a `custom_title` before every entry that has
one, and within each of the two groups orders entries by `analysis_date`
descending (most recent first). -/
theorem filtered_history_sorted_order (mode : HistoryFilter) (l : List HistoryEntry) :
    (filtered_history_sorted mode l).Pairwise (fun a b =>
      (b.custom_title = none → a.custom_title = none) ∧
      (a.custom_title.isNone = b.custom_title.isNone →
        b.analysis_date.getD "" ≤ a.analysis_date.getD "")) := by
  have hs : List.Sorted history_order (filtered_history_sorted mode l) :=
    List.sorted_insertionSort history_order (filter_history mode l)
  refine List.Pairwise.imp ?_ hs
  intro a b hab
  rcases hab with h | ⟨h1, h2⟩
  · have hb : b.custom_title.isNone = false := (Bool.lt_iff.mp h).1
    have ha : a.custom_title.isNone = true := (Bool.lt_iff.mp h).2
    constructor
    · intro _
      exact Option.isNone_iff_eq_none.mp ha
    · intro heq
      rw [heq, hb] at ha
      exact absurd ha (by decide)
  · have h1' : b.custom_title.isNone = a.custom_title.isNone := h1
    have h2' : b.analysis_date.getD "" ≤ a.analysis_date.getD "" := h2
    constructor
    · intro hbnone
      apply Option.isNone_iff_eq_none.mp
      rw [← h1']
      simp [hbnone]
    · intro _
      exact h2'

/-- A raw Planned table whose city cell `津市市` still ends in `市` after
one normalization (`津市` is a real city name ending in the suffix). -/
def raw_plan_jinshi : List Column := [⟨"市", [some "津市市"]⟩]

/-- Counterexample to claim C3 as stated: applying
`validate_and_process_data` to its own output changes the Planned table
again, because the `市$` strip removes one trailing `市` per application
(`津市市` becomes `津市`, then `津`). -/
theorem validate_and_process_not_idempotent :
    (validate_and_process_data
        (validate_and_process_data (some raw_plan_jinshi) none).1
        (validate_and_process_data (some raw_plan_jinshi) none).2.1).1
      ≠ (validate_and_process_data (some raw_plan_jinshi) none).1 := by
  decide

/-- Every non-null city value of the table lacks the trailing `市`. -/
def city_values_clean (t : List Column) : Prop :=
  ∀ c ∈ t, c.name = "城市" → ∀ v ∈ c.values,
    Option.all (fun s => !(ends_with_shi s)) v = true

instance (t : List Column) : Decidable (city_values_clean t) := by
  unfold city_values_clean
  infer_instance

/-- The hypothesis of the amended idempotence claim on the Planned side:
no city value of the once-normalized Planned table still ends in `市`. -/
def plan_output_clean (o : Option (List Column)) : Prop :=
  match o with
  | none => True
  | some t => city_values_clean (process_plan t)

instance (o : Option (List Column)) : Decidable (plan_output_clean o) :=
  match o with
  | none => isTrue trivial
  | some t => inferInstanceAs (Decidable (city_values_clean (process_plan t)))

/-- The same hypothesis on the Actual side. -/
def actual_output_clean (o : Option (List Column)) : Prop :=
  match o with
  | none => True
  | some t => city_values_clean (process_actual t)

instance (o : Option (List Column)) : Decidable (actual_output_clean o) :=
  match o with
  | none => isTrue trivial
  | some t => inferInstanceAs (Decidable (city_values_clean (process_actual t)))

/-- Mapping a function that fixes every member of a list is the identity. -/
lemma map_eq_self_of_id {α : Type} {g : α → α} :
    ∀ {t : List α}, (∀ c ∈ t, g c = c) → t.map g = t
  | [], _ => rfl
  | c :: rest, h => by
    rw [List.map_cons, h c (List.mem_cons_self c rest),
      map_eq_self_of_id (fun x hx => h x (List.mem_cons_of_mem c hx))]

/-- The Planned rename map is idempotent on column names. -/
lemma rename_plan_col_idem (c : String) :
    rename_plan_col (rename_plan_col c) = rename_plan_col c := by
  by_cases h1 : c = "来单时间"
  · subst h1
    decide
  · by_cases h2 : c = "省"
    · subst h2
      decide
    · by_cases h3 : c = "市"
      · subst h3
        decide
      · simp [rename_plan_col, h1, h2, h3]

/-- The Actual rename map is idempotent on column names. -/
lemma rename_actual_col_idem (c : String) :
    rename_actual_col (rename_actual_col c) = rename_actual_col c := by
  by_cases h2 : c = "省"
  · subst h2
    decide
  · by_cases h3 : c = "市"
    · subst h3
      decide
    · simp [rename_actual_col, h2, h3]

/-- Stripping is the identity on a string that does not end in `市`. -/
lemma strip_city_suffix_eq_self {s : String} (h : ends_with_shi s = false) :
    strip_city_suffix s = s := by
  simp [strip_city_suffix, h]

/-- Cleaning the city column preserves column names. -/
lemma clean_city_column_name_mem {t : List Column} {c : Column}
    (hc : c ∈ clean_city_column t) : ∃ c' ∈ t, c.name = c'.name := by
  unfold clean_city_column at hc
  obtain ⟨c', hmem, heq⟩ := List.mem_map.mp hc
  refine ⟨c', hmem, ?_⟩
  rw [← heq]
  split_ifs <;> rfl

/-- Cleaning a table whose city values are already clean is a no-op. -/
lemma clean_city_column_eq_self {t : List Column} (h : city_values_clean t) :
    clean_city_column t = t := by
  unfold clean_city_column
  apply map_eq_self_of_id
  intro c hc
  by_cases hn : c.name = "城市"
  · rw [if_pos hn]
    have hv : c.values.map (Option.map strip_city_suffix) = c.values := by
      apply map_eq_self_of_id
      intro v hvmem
      cases v with
      | none => rfl
      | some s =>
        have hall := h c hc hn (some s) hvmem
        have hend : ends_with_shi s = false := by simpa using hall
        show some (strip_city_suffix s) = some s
        rw [strip_city_suffix_eq_self hend]
    rw [hv]
  · rw [if_neg hn]

/-- Every column name of the normalized Planned table is a fixed point of
the rename map and is not the dropped column. -/
lemma process_plan_names {t : List Column} {c : Column} (hc : c ∈ process_plan t) :
    rename_plan_col c.name = c.name ∧ c.name ≠ "预约完工时间" := by
  unfold process_plan at hc
  obtain ⟨c', hc', hname⟩ := clean_city_column_name_mem hc
  unfold drop_columns at hc'
  have hf := List.mem_filter.mp hc'
  have hno : c'.name ≠ "预约完工时间" := by simpa using hf.2
  unfold rename_columns at hf
  obtain ⟨c0, _, heq0⟩ := List.mem_map.mp hf.1
  have hr : c'.name = rename_plan_col c0.name := by rw [← heq0]
  rw [hname, hr]
  refine ⟨rename_plan_col_idem _, ?_⟩
  rw [← hr]
  exact hno

/-- Every column name of the normalized Actual table is a fixed point of
the rename map. -/
lemma process_actual_names {t : List Column} {c : Column} (hc : c ∈ process_actual t) :
    rename_actual_col c.name = c.name := by
  unfold process_actual at hc
  obtain ⟨c', hc', hname⟩ := clean_city_column_name_mem hc
  unfold rename_columns at hc'
  obtain ⟨c0, _, heq0⟩ := List.mem_map.mp hc'
  have hr : c'.name = rename_actual_col c0.name := by rw [← heq0]
  rw [hname, hr]
  exact rename_actual_col_idem _

/-- Re-normalizing an already-normalized Planned table whose city values
are clean is a no-op. -/
lemma process_plan_idem (t : List Column) (h : city_values_clean (process_plan t)) :
    process_plan (process_plan t) = process_plan t := by
  have h1 : rename_columns rename_plan_col (process_plan t) = process_plan t := by
    unfold rename_columns
    apply map_eq_self_of_id
    intro c hc
    have hfix := (process_plan_names hc).1
    cases c
    simp_all
  have h2 : drop_columns (process_plan t) = process_plan t := by
    unfold drop_columns
    apply List.filter_eq_self.mpr
    intro c hc
    simpa using (process_plan_names hc).2
  show clean_city_column (drop_columns (rename_columns rename_plan_col (process_plan t)))
      = process_plan t
  rw [h1, h2]
  exact clean_city_column_eq_self h

/-- Re-normalizing an already-normalized Actual table whose city values
are clean is a no-op. -/
lemma process_actual_idem (t : List Column) (h : city_values_clean (process_actual t)) :
    process_actual (process_actual t) = process_actual t := by
  have h1 : rename_columns rename_actual_col (process_actual t) = process_actual t := by
    unfold rename_columns
    apply map_eq_self_of_id
    intro c hc
    have hfix := process_actual_names hc
    cases c
    simp_all
  show clean_city_column (rename_columns rename_actual_col (process_actual t))
      = process_actual t
  rw [h1]
  exact clean_city_column_eq_self h

/-- Claim C3 amended: the schema normalizer is idempotent on every table
pair whose once-normalized city values no longer end in the `市` suffix
(the column renames and the drop are unconditionally idempotent); without
that proviso a second application strips a further trailing `市`, as the
counterexample with the city `津市市` shows. -/
theorem validate_and_process_idempotent (plan_df actual_df : Option (List Column))
    (hp : plan_output_clean plan_df) (ha : actual_output_clean actual_df) :
    (validate_and_process_data
        (validate_and_process_data plan_df actual_df).1
        (validate_and_process_data plan_df actual_df).2.1).1
      = (validate_and_process_data plan_df actual_df).1 ∧
    (validate_and_process_data
        (validate_and_process_data plan_df actual_df).1
        (validate_and_process_data plan_df actual_df).2.1).2.1
      = (validate_and_process_data plan_df actual_df).2.1 := by
  cases plan_df with
  | none =>
    cases actual_df with
    | none => exact ⟨rfl, rfl⟩
    | some a =>
      refine ⟨rfl, ?_⟩
      show some (process_actual (process_actual a)) = some (process_actual a)
      rw [process_actual_idem a ha]
  | some p =>
    cases actual_df with
    | none =>
      refine ⟨?_, rfl⟩
      show some (process_plan (process_plan p)) = some (process_plan p)
      rw [process_plan_idem p hp]
    | some a =>
      constructor
      · show some (process_plan (process_plan p)) = some (process_plan p)
        rw [process_plan_idem p hp]
      · show some (process_actual (process_actual a)) = some (process_actual a)
        rw [process_actual_idem a ha]

/-- A raw Planned table with a normal city suffix and the deprecated
column to be dropped. -/
def raw_plan_shenzhen : List Column :=
  [⟨"市", [some "深圳市"]⟩, ⟨"预约完工时间", [some "2024-01-01"]⟩]

/-- A raw Actual table with a city column and an order-id column. -/
def raw_actual_shanghai : List Column :=
  [⟨"工单号", [some "A1"]⟩, ⟨"市", [some "上海市"]⟩]

/-- Witness for the amended C3 at a typical pair of raw tables. -/
theorem validate_and_process_idempotent_witness :
    plan_output_clean (some raw_plan_shenzhen) ∧
    actual_output_clean (some raw_actual_shanghai) ∧
    ((validate_and_process_data
        (validate_and_process_data (some raw_plan_shenzhen) (some raw_actual_shanghai)).1
        (validate_and_process_data (some raw_plan_shenzhen) (some raw_actual_shanghai)).2.1).1
      = (validate_and_process_data (some raw_plan_shenzhen) (some raw_actual_shanghai)).1 ∧
    (validate_and_process_data
        (validate_and_process_data (some raw_plan_shenzhen) (some raw_actual_shanghai)).1
        (validate_and_process_data (some raw_plan_shenzhen) (some raw_actual_shanghai)).2.1).2.1
      = (validate_and_process_data (some raw_plan_shenzhen) (some raw_actual_shanghai)).2.1) :=
  ⟨by decide, by decide,
   validate_and_process_idempotent (some raw_plan_shenzhen) (some raw_actual_shanghai)
     (by decide) (by decide)⟩

/-- Membership in the per-city planned id set. -/
lemma mem_city_ids {rows : List Row} {city x : String} :
    x ∈ city_ids rows city ↔ ∃ r ∈ rows, r.city = some city ∧ r.orderId = some x := by
  simp only [city_ids, city_rows, List.mem_toFinset, List.mem_filterMap, List.mem_filter,
    decide_eq_true_eq]
  constructor
  · rintro ⟨r, ⟨hr, hc⟩, hid⟩
    exact ⟨r, hr, hc, hid⟩
  · rintro ⟨r, hr, hc, hid⟩
    exact ⟨r, ⟨hr, hc⟩, hid⟩

/-- With the required columns present, `analyze_region_details` is the
descending sort of one `RegionRow` per distinct city of the union. -/
lemma analyze_region_details_open (plan_df actual_df : DFrame)
    (h2 : plan_df.hasProvince = true) (h3 : plan_df.hasCity = true) :
    analyze_region_details plan_df actual_df
      = List.insertionSort region_order
        (((plan_df.rows.filterMap (fun r => r.city) ++
            (if actual_df.hasCity then actual_df.rows.filterMap (fun r => r.city)
             else [])).dedup).map
          (region_row_for plan_df actual_df)) := by
  simp only [analyze_region_details, h2, h3, Bool.and_self, if_true]

/-- The sum of per-region planned counts equals the number of distinct
non-null planned order ids, provided every planned row carrying an order id
also carries a city and no order id appears under two different cities. -/
lemma analyze_region_details_sum (plan_df actual_df : DFrame)
    (h2 : plan_df.hasProvince = true) (h3 : plan_df.hasCity = true)
    (hcov : ∀ r ∈ plan_df.rows, r.orderId.isSome = true → r.city.isSome = true)
    (huniq : ∀ r1 ∈ plan_df.rows, ∀ r2 ∈ plan_df.rows,
      r1.orderId = r2.orderId → r1.orderId ≠ none → r1.city = r2.city) :
    ((analyze_region_details plan_df actual_df).map (fun r => r.plan_count)).sum
      = ((plan_df.rows.filterMap (fun r => r.orderId)).toFinset).card := by
  rw [analyze_region_details_open plan_df actual_df h2 h3]
  have hperm := (List.perm_insertionSort region_order
    (((plan_df.rows.filterMap (fun r => r.city) ++
        (if actual_df.hasCity then actual_df.rows.filterMap (fun r => r.city)
         else [])).dedup).map
      (region_row_for plan_df actual_df))).map (fun r => r.plan_count)
  rw [hperm.sum_eq, List.map_map]
  rw [show ((fun r : RegionRow => r.plan_count) ∘ region_row_for plan_df actual_df)
      = (fun c => (city_ids plan_df.rows c).card) from rfl]
  rw [← List.sum_toFinset _ (List.nodup_dedup _)]
  have hto : ((plan_df.rows.filterMap (fun r => r.city) ++
      (if actual_df.hasCity then actual_df.rows.filterMap (fun r => r.city)
       else [])).dedup).toFinset
      = ((plan_df.rows.filterMap (fun r => r.city) ++
        (if actual_df.hasCity then actual_df.rows.filterMap (fun r => r.city)
         else []))).toFinset := by
    ext x
    simp [List.mem_dedup]
  rw [hto]
  have hdisj : ∀ c1 ∈ ((plan_df.rows.filterMap (fun r => r.city) ++
      (if actual_df.hasCity then actual_df.rows.filterMap (fun r => r.city)
       else []))).toFinset,
      ∀ c2 ∈ ((plan_df.rows.filterMap (fun r => r.city) ++
        (if actual_df.hasCity then actual_df.rows.filterMap (fun r => r.city)
         else []))).toFinset,
      c1 ≠ c2 → Disjoint (city_ids plan_df.rows c1) (city_ids plan_df.rows c2) := by
    intro c1 _ c2 _ hne
    rw [Finset.disjoint_left]
    intro x hx1 hx2
    obtain ⟨r1, hr1, hc1, hid1⟩ := mem_city_ids.mp hx1
    obtain ⟨r2, hr2, hc2, hid2⟩ := mem_city_ids.mp hx2
    have heq := huniq r1 hr1 r2 hr2 (by rw [hid1, hid2]) (by simp [hid1])
    rw [hc1, hc2] at heq
    exact hne (Option.some_injective _ heq)
  rw [← Finset.card_biUnion hdisj]
  have hset : (((plan_df.rows.filterMap (fun r => r.city) ++
      (if actual_df.hasCity then actual_df.rows.filterMap (fun r => r.city)
       else []))).toFinset).biUnion (fun c => city_ids plan_df.rows c)
      = (plan_df.rows.filterMap (fun r => r.orderId)).toFinset := by
    ext x
    simp only [Finset.mem_biUnion, List.mem_toFinset, List.mem_filterMap, List.mem_append]
    constructor
    · rintro ⟨c, _, hx⟩
      obtain ⟨r, hr, _, hid⟩ := mem_city_ids.mp hx
      exact ⟨r, hr, hid⟩
    · rintro ⟨r, hr, hid⟩
      have hcs : r.city.isSome = true := hcov r hr (by simp [hid])
      obtain ⟨ct, hct⟩ := Option.isSome_iff_exists.mp hcs
      refine ⟨ct, ?_, mem_city_ids.mpr ⟨r, hr, hct, hid⟩⟩
      exact Or.inl ⟨r, hr, hct⟩
  rw [hset]

/-- A Planned table whose only order id sits in a row with a null city: the
id is counted in `|P|` but in no region bucket. -/
def plan_null_city : DFrame := ⟨true, true, true, [⟨some "A1", some "GD", none⟩]⟩

/-- An empty Actual table. -/
def actual_empty : DFrame := ⟨true, true, true, []⟩

/-- Counterexample to claim C4 as stated: for a planned row whose city is
null, the region summaries' planned counts sum to `0` while `|P| = 1`. -/
theorem region_planned_counts_sum_breaks :
    (((analyze_data_by_region plan_null_city actual_empty [] []).region_stats).map
        (fun r => r.plan_count)).sum = 0 ∧
    (analyze_data_by_region plan_null_city actual_empty [] []).total_plan = 1 := by
  decide

/-- Claim C4 amended: for every filtered Planned/Actual pair, the sum of
`planned_count` over all region-summary rows equals `|P|`, the number of
distinct non-null planned order ids in the same filter scope, provided
every planned row with a non-null order id also has a non-null city and no
order id appears in rows of two different cities; each distinct id is then
counted exactly once across regions. -/
theorem region_planned_counts_sum (plan_df actual_df : DFrame) (sp sc : List String)
    (h1 : plan_df.hasOrderId = true) (h2 : plan_df.hasProvince = true)
    (h3 : plan_df.hasCity = true)
    (hcov : ∀ r ∈ plan_df.rows, r.orderId.isSome = true → r.city.isSome = true)
    (huniq : ∀ r1 ∈ plan_df.rows, ∀ r2 ∈ plan_df.rows,
      r1.orderId = r2.orderId → r1.orderId ≠ none → r1.city = r2.city) :
    (((analyze_data_by_region plan_df actual_df sp sc).region_stats).map
        (fun r => r.plan_count)).sum
      = (analyze_data_by_region plan_df actual_df sp sc).total_plan := by
  have hsum := analyze_region_details_sum
    { plan_df with rows := applyFilters plan_df.rows sp sc }
    { actual_df with rows := applyFilters actual_df.rows sp sc }
    h2 h3
    (fun r hr h => hcov r (mem_applyFilters hr) h)
    (fun r1 hr1 r2 hr2 he hn =>
      huniq r1 (mem_applyFilters hr1) r2 (mem_applyFilters hr2) he hn)
  have hids : ids { plan_df with rows := applyFilters plan_df.rows sp sc }
      = ((applyFilters plan_df.rows sp sc).filterMap (fun r => r.orderId)).toFinset := by
    simp [ids, h1]
  show ((analyze_region_details
      { plan_df with rows := applyFilters plan_df.rows sp sc }
      { actual_df with rows := applyFilters actual_df.rows sp sc }).map
        (fun r => r.plan_count)).sum
    = (ids { plan_df with rows := applyFilters plan_df.rows sp sc }).card
  rw [hids]
  exact hsum

/-- A Planned table with two orders in two cities. -/
def plan_two_cities : DFrame :=
  ⟨true, true, true,
   [⟨some "A1", some "GD", some "SZ"⟩, ⟨some "A2", some "GD", some "GZ"⟩]⟩

/-- An Actual table with one completed order. -/
def actual_one_city : DFrame := ⟨true, true, true, [⟨some "A2", some "GD", some "GZ"⟩]⟩

/-- Witness for the amended C4 at a two-city pair of tables. -/
theorem region_planned_counts_sum_witness :
    (((analyze_data_by_region plan_two_cities actual_one_city [] []).region_stats).map
        (fun r => r.plan_count)).sum
      = (analyze_data_by_region plan_two_cities actual_one_city [] []).total_plan :=
  region_planned_counts_sum plan_two_cities actual_one_city [] []
    (by decide) (by decide) (by decide) (by decide) (by decide)

/-- A Planned table whose two rows share the city name but sit in two
different provinces. -/
def plan_same_city_two_provinces : DFrame :=
  ⟨true, true, true,
   [⟨some "A1", some "P1", some "C"⟩, ⟨some "A2", some "P2", some "C"⟩]⟩

/-- An Actual table with no rows. -/
def actual_no_rows : DFrame := ⟨true, true, true, []⟩

/-- Counterexample to claim C5 as stated: two rows with the same city but
different provinces produce one single summary row (whose planned count
aggregates both orders), not one row per distinct (province, city) pair. -/
theorem region_grouping_merges_provinces :
    (analyze_region_details plan_same_city_two_provinces actual_no_rows).length = 1 ∧
    ((plan_same_city_two_provinces.rows.map (fun r => (r.province, r.city))).dedup).length
      = 2 ∧
    ((analyze_region_details plan_same_city_two_provinces actual_no_rows).map
        (fun r => r.plan_count)) = [2] := by
  decide

/-- Claim C5 amended: region summaries are grouped by the normalized city
alone — there is exactly one summary row per distinct non-null city
appearing in the union of the Planned and Actual tables, and rows with the
same city name but different provinces are aggregated into the same
region. -/
theorem region_grouping_by_city (plan_df actual_df : DFrame)
    (h2 : plan_df.hasProvince = true) (h3 : plan_df.hasCity = true) :
    ((analyze_region_details plan_df actual_df).map (fun r => r.city)).Perm
      ((plan_df.rows.filterMap (fun r => r.city) ++
        (if actual_df.hasCity then actual_df.rows.filterMap (fun r => r.city)
         else [])).dedup) ∧
    ((analyze_region_details plan_df actual_df).map (fun r => r.city)).Nodup := by
  rw [analyze_region_details_open plan_df actual_df h2 h3]
  have hperm := (List.perm_insertionSort region_order
    (((plan_df.rows.filterMap (fun r => r.city) ++
        (if actual_df.hasCity then actual_df.rows.filterMap (fun r => r.city)
         else [])).dedup).map
      (region_row_for plan_df actual_df))).map (fun r => r.city)
  rw [List.map_map,
    show ((fun r : RegionRow => r.city) ∘ region_row_for plan_df actual_df)
      = (fun c => c) from rfl, List.map_id'] at hperm
  exact ⟨hperm, hperm.nodup_iff.mpr (List.nodup_dedup _)⟩

/-- A Planned table with cities `SZ` and `FS`. -/
def plan_cities_pair : DFrame :=
  ⟨true, true, true,
   [⟨some "A1", some "GD", some "SZ"⟩, ⟨some "A2", some "GD", some "FS"⟩]⟩

/-- An Actual table contributing the further city `HZ`. -/
def actual_city_extra : DFrame := ⟨true, true, true, [⟨some "A3", some "ZJ", some "HZ"⟩]⟩

/-- Witness for the amended C5 at a three-city pair of tables. -/
theorem region_grouping_by_city_witness :
    ((analyze_region_details plan_cities_pair actual_city_extra).map
        (fun r => r.city)).Perm
      ((plan_cities_pair.rows.filterMap (fun r => r.city) ++
        (if actual_city_extra.hasCity then
          actual_city_extra.rows.filterMap (fun r => r.city)
         else [])).dedup) ∧
    ((analyze_region_details plan_cities_pair actual_city_extra).map
        (fun r => r.city)).Nodup :=
  region_grouping_by_city plan_cities_pair actual_city_extra (by decide) (by decide)

end OrderAnalysis
